import Mathlib

/-!
# Mini League ledger engine: a shallow embedding

This file embeds the payout, balance and statistics logic of `app.py`
(the SSIQ Mini League dashboard) and proves the specified properties of it.

Conventions of the embedding:
* Python dicts keyed by player names become total functions `Player → Int`
  that are `0` outside the dict's key set, together with an explicit key
  list where the set of keys matters (for sums over `dict.values()`).
* The pandas "DataFrame" of contest rows becomes a `List Record`; a raw
  spreadsheet row (strings) becomes a `RawRow`, and `load_data` is the
  column coercion `pd.to_numeric(..., errors=coerce).fillna(0)` together
  with `pd.to_datetime(..., errors=coerce)`.
* Calendar dates are encoded as the natural number `y * 10000 + m * 100 + d`,
  which orders date codes exactly as the calendar orders their dates.
* Money amounts are integers (the app only ever adds and negates them).
-/

namespace MiniLeague

abbrev Player := String

/-- `initial_balances = {"Hans": 0, "Rich": 80, "Ralls": -80}` from `app.py`. -/
def get_initial_balance (p : Player) : Int :=
  if p = "Hans" then 0 else if p = "Rich" then 80 else if p = "Ralls" then -80 else 0

/-- `st.session_state.players = list(initial_balances.keys())`. -/
def players : List Player := ["Hans", "Rich", "Ralls"]

/-- `DEFAULT_BET_AMOUNT = 40`. -/
def DEFAULT_BET_AMOUNT : Int := 40

/-- The `profit` local of `calculate_result`: `bet` for two participants,
`bet * 2` for three, `0` for any other participant count. -/
def profit (participants : List Player) (bet_amount : Int) : Int :=
  if participants.length = 2 then bet_amount
  else if participants.length = 3 then bet_amount * 2
  else 0

/-- `calculate_result(participants, winner, bet_amount)` as the total outcome
function: the Python dict starts as `{p: 0 for p in players}` and is then
overwritten at every participant, the winner getting `profit` and every other
participant `-bet_amount`; any player absent from the dict reads as `0`. -/
def calculate_result (participants : List Player) (winner : Player)
    (bet_amount : Int) : Player → Int := fun p =>
  if p ∈ participants then
    (if p = winner then profit participants bet_amount else -bet_amount)
  else 0

/-- The key list of the dict built by `calculate_result`: the roster players
(in insertion order) followed by any participants outside the roster. -/
def result_keys (participants : List Player) : List Player :=
  players ++ participants.filter (fun p => ¬ p ∈ players)

/-- `sum(result.values())`: the sum of the outcome dict over its keys. -/
def total_outcome (participants : List Player) (winner : Player)
    (bet_amount : Int) : Int :=
  ((result_keys participants).map (calculate_result participants winner bet_amount)).sum

lemma calculate_result_of_not_mem {participants : List Player} {winner p : Player}
    {b : Int} (h : ¬ p ∈ participants) :
    calculate_result participants winner b p = 0 := by
  simp [calculate_result, h]

lemma calculate_result_winner {participants : List Player} {winner : Player}
    {b : Int} (h : winner ∈ participants) :
    calculate_result participants winner b winner = profit participants b := by
  simp [calculate_result, h]

lemma calculate_result_loser {participants : List Player} {winner p : Player}
    {b : Int} (hp : p ∈ participants) (hpw : p ≠ winner) :
    calculate_result participants winner b p = -b := by
  simp [calculate_result, hp, hpw]

lemma result_keys_nodup {participants : List Player} (h : participants.Nodup) :
    (result_keys participants).Nodup := by
  refine List.Nodup.append (by decide) (h.filter _) ?_
  intro a ha hafil
  have := List.of_mem_filter hafil
  simp_all

lemma subset_result_keys (participants : List Player) :
    participants ⊆ result_keys participants := by
  intro a ha
  by_cases hp : a ∈ players
  · exact List.mem_append_left _ hp
  · exact List.mem_append_right _ (List.mem_filter.2 ⟨ha, by simp [hp]⟩)

/-- The value of `sum(calculate_result(...).values())` in closed form:
the winner's profit minus one bet per losing participant. -/
lemma total_outcome_eq {participants : List Player} {winner : Player} (b : Int)
    (hnd : participants.Nodup) (hw : winner ∈ participants) :
    total_outcome participants winner b
      = profit participants b - ((participants.length : Int) - 1) * b := by
  classical
  have hkeys : (result_keys participants).Nodup := result_keys_nodup hnd
  have hsum1 : total_outcome participants winner b
      = (result_keys participants).toFinset.sum
          (calculate_result participants winner b) := by
    rw [total_outcome, List.sum_toFinset _ hkeys]
  have hsub : participants.toFinset ⊆ (result_keys participants).toFinset := by
    intro a ha
    exact List.mem_toFinset.2 (subset_result_keys participants (List.mem_toFinset.1 ha))
  have hzero : ∀ x ∈ (result_keys participants).toFinset,
      x ∉ participants.toFinset → calculate_result participants winner b x = 0 := by
    intro x _ hx
    exact calculate_result_of_not_mem (fun hmem => hx (List.mem_toFinset.2 hmem))
  have hsum2 : (result_keys participants).toFinset.sum
        (calculate_result participants winner b)
      = participants.toFinset.sum (calculate_result participants winner b) :=
    (Finset.sum_subset hsub hzero).symm
  have hwmem : winner ∈ participants.toFinset := List.mem_toFinset.2 hw
  have hsum3 : participants.toFinset.sum (calculate_result participants winner b)
      = calculate_result participants winner b winner
        + (participants.toFinset.erase winner).sum
            (calculate_result participants winner b) :=
    (Finset.add_sum_erase _ _ hwmem).symm
  have hconst : (participants.toFinset.erase winner).sum
        (calculate_result participants winner b)
      = ((participants.toFinset.erase winner).card : Int) * (-b) := by
    rw [Finset.sum_congr rfl (fun x hx => ?_), Finset.sum_const, nsmul_eq_mul]
    have hxp : x ∈ participants := List.mem_toFinset.1 (Finset.mem_of_mem_erase hx)
    exact calculate_result_loser hxp (Finset.ne_of_mem_erase hx)
  have hcard : (participants.toFinset.erase winner).card
      = participants.length - 1 := by
    rw [Finset.card_erase_of_mem hwmem, List.toFinset_card_of_nodup hnd]
  have hlen : 1 ≤ participants.length := List.length_pos.2 (by
    intro hnil; rw [hnil] at hw; exact (List.not_mem_nil winner) hw)
  have hcast : ((participants.length - 1 : Nat) : Int)
      = (participants.length : Int) - 1 := by
    omega
  rw [hsum1, hsum2, hsum3, hconst, hcard, hcast,
    calculate_result_winner hw]
  ring

/-! ## Loaded records and `load_data` -/

/-- A contest row after `load_data`: the `Date` column parsed with
`pd.to_datetime(..., errors=coerce)` (`none` is `NaT`), the `Track` column,
and one numeric outcome per player (`0` outside the outcome columns). -/
structure Record where
  date : Option Nat
  track : String
  outcomes : Player → Int

/-- A raw stored row as the spreadsheet hands it back: every cell a string,
a missing player column (or blank cell) read as `none`. -/
structure RawRow where
  date : String
  track : String
  cells : Player → Option String

/-- Digit-string parsing on a character list: a nonempty all-digit list
parses to its decimal value, anything else to `none`. -/
def parseNatChars (cs : List Char) : Option Nat :=
  if cs ≠ [] ∧ cs.all (fun c => c.isDigit) then
    some (cs.foldl (fun a c => a * 10 + (c.toNat - 48)) 0)
  else none

/-- Numeric-string coercion, the shallow model of
`pd.to_numeric(value, errors=coerce)` on the integer-valued outcome cells:
an optional minus sign followed by digits parses, anything else is `none`. -/
def parseNumeric (s : String) : Option Int :=
  match s.data with
  | [] => none
  | c :: cs =>
    if c = '-' then (parseNatChars cs).map (fun n => -(n : Int))
    else (parseNatChars (c :: cs)).map (fun n => (n : Int))

/-- Splitting a character list at the dashes (the `-` separators of an
ISO date string); `acc` holds the current field reversed. -/
def splitDash : List Char → List Char → List (List Char)
  | [], acc => [acc.reverse]
  | c :: cs, acc =>
    if c = '-' then acc.reverse :: splitDash cs []
    else splitDash cs (c :: acc)

/-- `YYYY-MM-DD` date parsing, the shallow model of
`pd.to_datetime(value, errors=coerce)`: the date is encoded as the code
`y * 10000 + m * 100 + d`, and anything unparsable is `none` (`NaT`). -/
def parseDate (s : String) : Option Nat :=
  match splitDash s.data [] with
  | [y, m, d] =>
    match parseNatChars y, parseNatChars m, parseNatChars d with
    | some yn, some mn, some dn =>
        if 1 ≤ mn ∧ mn ≤ 12 ∧ 1 ≤ dn ∧ dn ≤ 31 then
          some (yn * 10000 + mn * 100 + dn)
        else none
    | _, _, _ => none
  | _ => none

/-- One row of `load_data`'s coercion: each player column goes through
`pd.to_numeric(..., errors=coerce).fillna(0)` (missing column filled with
`0`), and `Date` through `pd.to_datetime(..., errors=coerce)`. -/
def loadRow (w : RawRow) : Record where
  date := parseDate w.date
  track := w.track
  outcomes := fun p =>
    match w.cells p with
    | none => 0
    | some s => (parseNumeric s).getD 0

/-- `load_data()` applied to the stored rows. -/
def load_data (rows : List RawRow) : List Record := rows.map loadRow

/-! ## Balances -/

/-- `compute_balances(df)`: for each player, the initial balance plus the
sum of the player's outcome column (`get_initial_balance(p) + df[p].sum()`). -/
def compute_balances (records : List Record) : Player → Int := fun p =>
  get_initial_balance p + (records.map (fun r => r.outcomes p)).sum

/-! ## Statistics -/

/-- `len(df[df[p] != 0])`: the number of records the player took part in. -/
def total_contests (records : List Record) (p : Player) : Nat :=
  (records.filter (fun r => r.outcomes p ≠ 0)).length

/-- `(df_player[p] > 0).sum()` where `df_player = df[df[p] != 0]`. -/
def wins (records : List Record) (p : Player) : Nat :=
  ((records.filter (fun r => r.outcomes p ≠ 0)).filter
    (fun r => 0 < r.outcomes p)).length

/-- `win_ratio = wins / total_contests * 100 if total_contests > 0 else 0`. -/
def win_ratio (records : List Record) (p : Player) : ℚ :=
  if 0 < total_contests records p then
    (wins records p : ℚ) / (total_contests records p : ℚ) * 100
  else 0

/-- The index of `df.groupby(df[Date].dt.date)`: the distinct parsed dates in
ascending order (`NaT` rows are dropped by the groupby). -/
def validDates (records : List Record) : List Nat :=
  List.insertionSort (· ≤ ·) (records.filterMap (fun r => r.date)).dedup

/-- One entry of `daily_sums = df.groupby(df[Date].dt.date)[p].sum()`:
the player's net outcome over the records of one calendar day. -/
def dailySum (records : List Record) (p : Player) (d : Nat) : Int :=
  ((records.filter (fun r => r.date = some d)).map (fun r => r.outcomes p)).sum

/-- `daily_sums.max() if daily_sums is nonempty else 0`
(the `Highest Daily Win` column). -/
def best_day_value (records : List Record) (p : Player) : Int :=
  WithBot.unbot' 0 ((validDates records).map (dailySum records p)).maximum

/-- `daily_sums.idxmax()` (the `Highest Win Day` column): the first index of
the ascending-date series whose value is the maximum, `none` (rendered as
`N/A`) when the series is empty. -/
def best_day (records : List Record) (p : Player) : Option Nat :=
  (validDates records).find? (fun d => dailySum records p d = best_day_value records p)

/-! ## Claims about the payout rule -/

/-- C1 (counterexample): the claim says any participant list of size `≥ 4`
with the winner among the participants and a positive bet yields the all-zero
outcome mapping; in the code only the winner's profit is zeroed while every
other participant is still charged the bet, so a four-way contest at bet `40`
gives a non-winner `-40`, not `0`. -/
theorem claim_C1_counterexample :
    calculate_result ["Hans", "Rich", "Ralls", "Gus"] "Hans" 40 "Rich" ≠ 0 := by
  decide

/-- C1 (amended): for a participant list of size `0` or `1` (with the winner
among the participants when it is non-empty) and any positive bet,
`calculate_result` returns `0` for every player. -/
theorem claim_C1_degenerate_sizes_all_zero (participants : List Player)
    (winner : Player) (b : Int) (hb : 0 < b) (hlen : participants.length ≤ 1)
    (hw : participants = [] ∨ winner ∈ participants) (p : Player) :
    calculate_result participants winner b p = 0 := by
  by_cases hp : p ∈ participants
  · have hne : participants ≠ [] := List.ne_nil_of_mem hp
    have hone : participants.length = 1 :=
      le_antisymm hlen (List.length_pos.2 hne)
    rcases List.length_eq_one.1 hone with ⟨a, ha⟩
    subst ha
    have hpa : p = a := by simpa using hp
    have hwa : winner = a := by
      rcases hw with h | h
      · simp at h
      · simpa using h
    subst hpa
    rw [hwa, calculate_result_winner (by simp)]
    simp [profit]
  · exact calculate_result_of_not_mem hp

/-- C1 (witness): a one-person "contest" zeroes both the sole participant
and an outsider. -/
theorem claim_C1_witness :
    calculate_result ["Hans"] "Hans" 40 "Hans" = 0 ∧
    calculate_result ["Hans"] "Hans" 40 "Rich" = 0 :=
  ⟨claim_C1_degenerate_sizes_all_zero ["Hans"] "Hans" 40 (by decide) (by decide)
      (Or.inr (by decide)) "Hans",
    claim_C1_degenerate_sizes_all_zero ["Hans"] "Hans" 40 (by decide) (by decide)
      (Or.inr (by decide)) "Rich"⟩

/-- C2: for a participant set of size 2 or 3 with the winner among the
participants, the outcome dict built by `calculate_result` sums to zero
over all its entries, for every bet amount. -/
theorem claim_C2_zero_sum (participants : List Player) (winner : Player)
    (b : Int) (hnd : participants.Nodup)
    (hlen : participants.length = 2 ∨ participants.length = 3)
    (hw : winner ∈ participants) :
    total_outcome participants winner b = 0 := by
  rw [total_outcome_eq b hnd hw]
  rcases hlen with h | h <;> simp [profit, h] <;> ring

/-- C2 (witness): the three-way contest `{Hans, Rich, Ralls}`, winner `Rich`,
bet `40`, sums to zero. -/
theorem claim_C2_witness :
    total_outcome ["Hans", "Rich", "Ralls"] "Rich" 40 = 0 :=
  claim_C2_zero_sum ["Hans", "Rich", "Ralls"] "Rich" 40 (by decide)
    (Or.inr (by decide)) (by decide)

/-- C3: with the winner among the participants, a two-person contest pays the
winner `+b` and the other participant `-b`; a three-person contest pays the
winner `+2b` and each of the other two `-b`; and in both cases every player
outside the participants gets exactly `0`. -/
theorem claim_C3_pairwise_payouts (participants : List Player) (winner : Player)
    (b : Int) (hw : winner ∈ participants) :
    (participants.length = 2 →
      calculate_result participants winner b winner = b ∧
      ∀ p ∈ participants, p ≠ winner → calculate_result participants winner b p = -b) ∧
    (participants.length = 3 →
      calculate_result participants winner b winner = 2 * b ∧
      ∀ p ∈ participants, p ≠ winner → calculate_result participants winner b p = -b) ∧
    (∀ p, ¬ p ∈ participants → calculate_result participants winner b p = 0) := by
  refine ⟨fun h2 => ⟨?_, fun p hp hpw => calculate_result_loser hp hpw⟩,
    fun h3 => ⟨?_, fun p hp hpw => calculate_result_loser hp hpw⟩,
    fun p hp => calculate_result_of_not_mem hp⟩
  · rw [calculate_result_winner hw]; simp [profit, h2]
  · rw [calculate_result_winner hw]; simp [profit, h3]; ring

/-- C3 (witness): `{Hans, Rich}`, winner `Hans`, bet `40`: `Hans` gets `+40`,
`Rich` gets `-40`, `Ralls` gets `0`. -/
theorem claim_C3_witness :
    calculate_result ["Hans", "Rich"] "Hans" 40 "Hans" = 40 ∧
    calculate_result ["Hans", "Rich"] "Hans" 40 "Rich" = -40 ∧
    calculate_result ["Hans", "Rich"] "Hans" 40 "Ralls" = 0 :=
  ⟨((claim_C3_pairwise_payouts ["Hans", "Rich"] "Hans" 40 (by decide)).1
      (by decide)).1,
    ((claim_C3_pairwise_payouts ["Hans", "Rich"] "Hans" 40 (by decide)).1
      (by decide)).2 "Rich" (by decide) (by decide),
    (claim_C3_pairwise_payouts ["Hans", "Rich"] "Hans" 40 (by decide)).2.2
      "Ralls" (by decide)⟩

/-- C9: for contests as data entry builds them (distinct participants drawn
from the three-player roster, at least two of them, with the winner among
them, and a positive bet), a player's outcome is non-zero exactly when the
player is a participant. -/
theorem claim_C9_participation_iff (participants : List Player) (winner : Player)
    (b : Int) (hnd : participants.Nodup) (hsub : participants ⊆ players)
    (hlen : 2 ≤ participants.length) (hw : winner ∈ participants) (hb : 0 < b)
    (p : Player) :
    calculate_result participants winner b p ≠ 0 ↔ p ∈ participants := by
  have hle : participants.length ≤ players.length :=
    (hnd.subperm hsub).length_le
  have hlen3 : participants.length ≤ 3 := by simpa [players] using hle
  have hprofit : profit participants b ≠ 0 := by
    have h23 : participants.length = 2 ∨ participants.length = 3 := by omega
    rcases h23 with h | h <;> simp [profit, h] <;> omega
  constructor
  · intro hne
    by_contra hp
    exact hne (calculate_result_of_not_mem hp)
  · intro hp
    by_cases hpw : p = winner
    · rw [hpw, calculate_result_winner hw]
      exact hprofit
    · rw [calculate_result_loser hp hpw]
      omega

/-- C9 (witness): in the contest `{Hans, Rich}` won by `Hans` at bet `40`,
`Rich`'s outcome is non-zero exactly because `Rich` participates. -/
theorem claim_C9_witness :
    calculate_result ["Hans", "Rich"] "Hans" 40 "Rich" ≠ 0 ↔
      "Rich" ∈ (["Hans", "Rich"] : List Player) :=
  claim_C9_participation_iff ["Hans", "Rich"] "Hans" 40 (by decide) (by decide)
    (by decide) (by decide) (by decide) "Rich"

/-- C10: for a participant set of size at least 4 with the winner among the
participants and a positive bet `b`, the code pays the winner exactly `0`,
charges every other participant `-b`, and the outcome dict sums to
`-(n - 1) * b` — neither all-zero nor zero-sum. -/
theorem claim_C10_four_plus_payouts (participants : List Player)
    (winner : Player) (b : Int) (hnd : participants.Nodup)
    (hlen : 4 ≤ participants.length) (hw : winner ∈ participants) (hb : 0 < b) :
    calculate_result participants winner b winner = 0 ∧
    (∀ p ∈ participants, p ≠ winner → calculate_result participants winner b p = -b) ∧
    total_outcome participants winner b = -(((participants.length : Int) - 1) * b) := by
  have hprofit : profit participants b = 0 := by
    have h2 : participants.length ≠ 2 := by omega
    have h3 : participants.length ≠ 3 := by omega
    simp [profit, h2, h3]
  refine ⟨?_, fun p hp hpw => calculate_result_loser hp hpw, ?_⟩
  · rw [calculate_result_winner hw, hprofit]
  · rw [total_outcome_eq b hnd hw, hprofit]
    ring

/-- C10 (witness): the four-way contest `{Hans, Rich, Ralls, Gus}` won by
`Hans` at bet `40` pays the winner `0` and a loser `-40`. -/
theorem claim_C10_witness :
    calculate_result ["Hans", "Rich", "Ralls", "Gus"] "Hans" 40 "Hans" = 0 ∧
    calculate_result ["Hans", "Rich", "Ralls", "Gus"] "Hans" 40 "Ralls" = -40 :=
  ⟨(claim_C10_four_plus_payouts ["Hans", "Rich", "Ralls", "Gus"] "Hans" 40
      (by decide) (by decide) (by decide) (by decide)).1,
    (claim_C10_four_plus_payouts ["Hans", "Rich", "Ralls", "Gus"] "Hans" 40
      (by decide) (by decide) (by decide) (by decide)).2.1 "Ralls" (by decide)
      (by decide)⟩

/-! ## Claims about balances, statistics and loading -/

/-- C4: `compute_balances` is the initial balance plus the sum of the
player's outcome column; on an empty record list it returns the initial
balances verbatim; and a roster player whose column is missing from every
stored row (so `load_data` fills it with `0`) keeps the initial balance. -/
theorem claim_C4_balance_accumulation :
    (∀ (records : List Record) (p : Player),
      compute_balances records p
        = get_initial_balance p + (records.map (fun r => r.outcomes p)).sum) ∧
    (∀ p : Player, compute_balances [] p = get_initial_balance p) ∧
    (∀ (rows : List RawRow) (p : Player), (∀ w ∈ rows, w.cells p = none) →
      compute_balances (load_data rows) p = get_initial_balance p) := by
  refine ⟨fun records p => rfl, fun p => by simp [compute_balances], ?_⟩
  intro rows p h
  have hz : ((load_data rows).map (fun r => r.outcomes p)).sum = 0 := by
    apply List.sum_eq_zero
    intro x hx
    rw [load_data, List.map_map] at hx
    obtain ⟨w, hw, hwx⟩ := List.mem_map.1 hx
    rw [← hwx]
    simp [loadRow, h w hw]
  rw [compute_balances, hz, add_zero]

/-- C4 (witness): one stored row with no `Rich` column leaves `Rich` at the
initial balance `80`. -/
theorem claim_C4_witness :
    compute_balances
      (load_data [⟨"2024-01-01", "PARX",
        fun q => if q = "Hans" then some "40" else none⟩]) "Rich"
      = get_initial_balance "Rich" :=
  claim_C4_balance_accumulation.2.2
    [⟨"2024-01-01", "PARX", fun q => if q = "Hans" then some "40" else none⟩]
    "Rich" (by decide)

/-- The wins counted inside the participating subset are the wins counted
over all records: a positive outcome is already a non-zero outcome. -/
lemma wins_eq_count_pos (records : List Record) (p : Player) :
    wins records p = (records.filter (fun r => 0 < r.outcomes p)).length := by
  rw [wins, List.filter_filter]
  congr 1
  apply List.filter_congr
  intro r _
  by_cases h : 0 < r.outcomes p
  · have hne : r.outcomes p ≠ 0 := by omega
    simp [h, hne]
  · simp [h]

/-- C6: the win ratio is `wins / total_contests * 100`, with
`total_contests` counting the records where the player's outcome is
non-zero and `wins` those where it is positive, and it is `0` when the
player has no participating records (the guarded branch, so no division
by zero is ever attempted). -/
theorem claim_C6_win_ratio_formula (records : List Record) (p : Player) :
    win_ratio records p
      = (if (records.filter (fun r => r.outcomes p ≠ 0)).length = 0 then 0
         else ((records.filter (fun r => 0 < r.outcomes p)).length : ℚ)
            / ((records.filter (fun r => r.outcomes p ≠ 0)).length : ℚ) * 100) := by
  rw [win_ratio, wins_eq_count_pos, total_contests]
  by_cases h : (records.filter (fun r => r.outcomes p ≠ 0)).length = 0
  · rw [if_neg (by omega : ¬ 0 < (records.filter
      (fun r => r.outcomes p ≠ 0)).length), if_pos h]
  · rw [if_pos (by omega : 0 < (records.filter
      (fun r => r.outcomes p ≠ 0)).length), if_neg h]

/-- The groupby index is sorted ascending. -/
lemma validDates_sorted (records : List Record) :
    List.Sorted (· ≤ ·) (validDates records) :=
  List.sorted_insertionSort _ _

/-- The groupby index is empty exactly when no record has a parsed date. -/
lemma validDates_eq_nil_iff (records : List Record) :
    validDates records = [] ↔ records.filterMap (fun r => r.date) = [] := by
  have hperm := List.perm_insertionSort (α := Nat) (· ≤ ·)
    (records.filterMap (fun r => r.date)).dedup
  constructor
  · intro h
    rw [validDates] at h
    rw [h] at hperm
    have hd : (records.filterMap (fun r => r.date)).dedup = [] :=
      hperm.symm.eq_nil
    exact (List.dedup_eq_nil _).1 hd
  · intro h
    rw [validDates, h]
    rfl

/-- On an ascending-sorted list, `find?` returns a value no larger than any
other element satisfying the predicate: it reports the first hit. -/
lemma find?_min_of_sorted {q : Nat → Bool} :
    ∀ (l : List Nat), List.Sorted (· ≤ ·) l → ∀ (d : Nat), l.find? q = some d →
      ∀ x ∈ l, q x = true → d ≤ x
  | [], _, d, hf => by simp at hf
  | a :: t, hs, d, hf => by
    intro x hx hqx
    by_cases hqa : q a
    · rw [List.find?_cons_of_pos _ hqa] at hf
      have had : a = d := by simpa using hf
      rcases List.mem_cons.1 hx with rfl | hxl
      · exact le_of_eq had.symm
      · exact had ▸ List.rel_of_sorted_cons hs x hxl
    · rw [List.find?_cons_of_neg _ hqa] at hf
      rcases List.mem_cons.1 hx with rfl | hxl
      · exact absurd hqx hqa
      · exact find?_min_of_sorted t hs.of_cons d hf x hxl hqx

/-- C7: the highest daily win is the maximum over calendar days of the
player's daily net sum — with no records it is `0` and the day is `none`
(`N/A`); every day's sum is bounded by it; and when some record has a valid
date, the reported day is a day attaining the maximum that is no later than
any other maximal day (the first one in ascending date order). -/
theorem claim_C7_highest_daily_win (records : List Record) (p : Player) :
    (records = [] →
      best_day_value records p = 0 ∧ best_day records p = none) ∧
    (∀ d ∈ validDates records,
      dailySum records p d ≤ best_day_value records p) ∧
    (records.filterMap (fun r => r.date) ≠ [] →
      ∃ d, best_day records p = some d ∧ d ∈ validDates records ∧
        dailySum records p d = best_day_value records p ∧
        ∀ d' ∈ validDates records,
          dailySum records p d' = best_day_value records p → d ≤ d') := by
  refine ⟨?_, ?_, ?_⟩
  · rintro rfl
    exact ⟨rfl, rfl⟩
  · intro d hd
    have hmem : dailySum records p d
        ∈ (validDates records).map (dailySum records p) :=
      List.mem_map_of_mem _ hd
    have hne : (validDates records).map (dailySum records p) ≠ [] := by
      intro h
      rw [h] at hmem
      exact (List.not_mem_nil _) hmem
    obtain ⟨m, hm⟩ :=
      Option.ne_none_iff_exists'.1 (fun h => hne (List.maximum_eq_none.1 h))
    have hle := List.le_maximum_of_mem hmem hm
    rw [best_day_value, hm]
    exact_mod_cast hle
  · intro hne
    have hvne : validDates records ≠ [] := by
      rw [Ne, validDates_eq_nil_iff]; exact hne
    have hmapne : (validDates records).map (dailySum records p) ≠ [] := by
      simpa using hvne
    obtain ⟨m, hm⟩ :=
      Option.ne_none_iff_exists'.1 (fun h => hmapne (List.maximum_eq_none.1 h))
    have hbdv : best_day_value records p = m := by
      rw [best_day_value, hm]; rfl
    obtain ⟨d₀, hd₀v, hd₀e⟩ := List.mem_map.1 (List.maximum_mem hm)
    have hfind : (validDates records).find?
        (fun d => dailySum records p d = best_day_value records p) ≠ none := by
      rw [Ne, List.find?_eq_none]
      push_neg
      exact ⟨d₀, hd₀v, by simp [hbdv, hd₀e]⟩
    obtain ⟨d, hd⟩ := Option.ne_none_iff_exists'.1 hfind
    refine ⟨d, hd, List.mem_of_find?_eq_some hd, ?_, ?_⟩
    · have hpd := List.find?_some hd
      exact of_decide_eq_true hpd
    · intro d' hd' hq
      exact find?_min_of_sorted _ (validDates_sorted records) d hd d' hd'
        (decide_eq_true hq)

/-- C7 (witness): with two records on day `101` worth `40` each and one on
day `102` worth `50`, the engine reports the day sum `80` on day `101`,
not the best single record `50`; and with no records it reports `0`/`N/A`. -/
theorem claim_C7_witness :
    (best_day_value ([] : List Record) "Hans" = 0 ∧
      best_day ([] : List Record) "Hans" = none) ∧
    (∃ d, best_day
        [⟨some 102, "DD", fun q => if q = "Hans" then 50 else -50⟩,
          ⟨some 101, "PARX", fun q => if q = "Hans" then 40 else -40⟩,
          ⟨some 101, "TP", fun q => if q = "Hans" then 40 else -40⟩] "Hans"
        = some d ∧
      d ∈ validDates
        [⟨some 102, "DD", fun q => if q = "Hans" then 50 else -50⟩,
          ⟨some 101, "PARX", fun q => if q = "Hans" then 40 else -40⟩,
          ⟨some 101, "TP", fun q => if q = "Hans" then 40 else -40⟩] ∧
      dailySum
        [⟨some 102, "DD", fun q => if q = "Hans" then 50 else -50⟩,
          ⟨some 101, "PARX", fun q => if q = "Hans" then 40 else -40⟩,
          ⟨some 101, "TP", fun q => if q = "Hans" then 40 else -40⟩] "Hans" d
        = best_day_value
        [⟨some 102, "DD", fun q => if q = "Hans" then 50 else -50⟩,
          ⟨some 101, "PARX", fun q => if q = "Hans" then 40 else -40⟩,
          ⟨some 101, "TP", fun q => if q = "Hans" then 40 else -40⟩] "Hans" ∧
      ∀ d' ∈ validDates
        [⟨some 102, "DD", fun q => if q = "Hans" then 50 else -50⟩,
          ⟨some 101, "PARX", fun q => if q = "Hans" then 40 else -40⟩,
          ⟨some 101, "TP", fun q => if q = "Hans" then 40 else -40⟩],
        dailySum
          [⟨some 102, "DD", fun q => if q = "Hans" then 50 else -50⟩,
            ⟨some 101, "PARX", fun q => if q = "Hans" then 40 else -40⟩,
            ⟨some 101, "TP", fun q => if q = "Hans" then 40 else -40⟩] "Hans" d'
          = best_day_value
          [⟨some 102, "DD", fun q => if q = "Hans" then 50 else -50⟩,
            ⟨some 101, "PARX", fun q => if q = "Hans" then 40 else -40⟩,
            ⟨some 101, "TP", fun q => if q = "Hans" then 40 else -40⟩] "Hans"
          → d ≤ d') :=
  ⟨(claim_C7_highest_daily_win [] "Hans").1 rfl,
    (claim_C7_highest_daily_win
      [⟨some 102, "DD", fun q => if q = "Hans" then 50 else -50⟩,
        ⟨some 101, "PARX", fun q => if q = "Hans" then 40 else -40⟩,
        ⟨some 101, "TP", fun q => if q = "Hans" then 40 else -40⟩] "Hans").2.2
      (by decide)⟩

/-- C8: `load_data` coerces a missing or non-numeric outcome cell to `0` and
an unparsable date to `none` (`NaT`), and the date-grouped aggregates ignore
the rows whose date does not parse — none of these conditions escapes as an
error (the coercions are total functions). -/
theorem claim_C8_malformed_rows :
    (∀ (w : RawRow) (p : Player),
      (∀ s, w.cells p = some s → parseNumeric s = none) →
      (loadRow w).outcomes p = 0) ∧
    (∀ w : RawRow, parseDate w.date = none → (loadRow w).date = none) ∧
    (∀ (rows : List RawRow) (p : Player) (d : Nat),
      dailySum (load_data rows) p d
        = dailySum (load_data
            (rows.filter (fun w => (parseDate w.date).isSome))) p d) := by
  refine ⟨?_, ?_, ?_⟩
  · intro w p h
    simp only [loadRow]
    cases hc : w.cells p with
    | none => rfl
    | some s => simp [h s hc]
  · intro w h
    simp [loadRow, h]
  · intro rows p d
    rw [dailySum, dailySum, load_data, load_data, List.filter_map,
      List.filter_map, List.filter_filter]
    have hfil : rows.filter
          ((fun r => decide (Record.date r = some d)) ∘ loadRow)
        = rows.filter (fun w =>
            ((fun r => decide (Record.date r = some d)) ∘ loadRow) w
              && (parseDate w.date).isSome) := by
      apply List.filter_congr
      intro w _
      cases hw : parseDate w.date with
      | none => simp [Function.comp, loadRow, hw]
      | some e => simp [Function.comp, loadRow, hw]
    rw [← hfil]

/-- C8 (witness): a row whose date is `not-a-date` and whose only outcome
cell reads `forty` loads as outcome `0` with a null date, and dropping it
does not change a daily sum. -/
theorem claim_C8_witness :
    (loadRow ⟨"not-a-date", "PARX",
        fun q => if q = "Hans" then some "forty" else none⟩).outcomes "Hans" = 0 ∧
    (loadRow ⟨"not-a-date", "PARX",
        fun q => if q = "Hans" then some "forty" else none⟩).date = none ∧
    dailySum (load_data
        [⟨"not-a-date", "PARX", fun q => if q = "Hans" then some "forty" else none⟩,
          ⟨"2024-01-01", "TP", fun q => if q = "Hans" then some "40" else none⟩])
        "Hans" 20240101
      = dailySum (load_data
          ([⟨"not-a-date", "PARX", fun q => if q = "Hans" then some "forty" else none⟩,
            ⟨"2024-01-01", "TP", fun q => if q = "Hans" then some "40" else none⟩].filter
            (fun w => (parseDate w.date).isSome))) "Hans" 20240101 :=
  ⟨claim_C8_malformed_rows.1
      ⟨"not-a-date", "PARX", fun q => if q = "Hans" then some "forty" else none⟩
      "Hans" (by
        intro s hs
        have hs2 : some "forty" = some s := by simpa using hs
        have : s = "forty" := (Option.some_inj.1 hs2).symm
        rw [this]
        decide),
    claim_C8_malformed_rows.2.1
      ⟨"not-a-date", "PARX", fun q => if q = "Hans" then some "forty" else none⟩
      (by decide),
    claim_C8_malformed_rows.2.2
      [⟨"not-a-date", "PARX", fun q => if q = "Hans" then some "forty" else none⟩,
        ⟨"2024-01-01", "TP", fun q => if q = "Hans" then some "40" else none⟩]
      "Hans" 20240101⟩

end MiniLeague
